import Mathlib

/-!
Verification of the Hearback interview engine (`hearback_agent/interview.py`).

The Python data model and operations are shallowly embedded as Lean
definitions: `InterviewQuestion` / `InterviewResponse` mirror the two
dataclasses, `DEFAULT_QUESTIONS` is the canonical catalog, and the
`InterviewAgent` methods `conduct`, `summarize`, `to_dict` and
`_recommendations` become pure functions over lists.  Python `str.strip`
is modelled by `pyStrip`, `str.lower` by `pyLower` (ASCII case mapping,
which covers every string the engine compares), and Python `dict`
comprehensions by insertion into an association list with last-write-wins
semantics (`dictInsert` / `pyDictOf`).
-/

/-- Mirrors the frozen dataclass `InterviewQuestion(key, prompt, detail)`;
`detail: str | None` becomes `Option String`. -/
structure InterviewQuestion where
  key : String
  prompt : String
  detail : Option String := none
  deriving DecidableEq, Repr

/-- Mirrors the dataclass `InterviewResponse(key, question, answer)`. -/
structure InterviewResponse where
  key : String
  question : InterviewQuestion
  answer : String
  deriving DecidableEq, Repr

/-- The canonical catalog `DEFAULT_QUESTIONS` from `interview.py`. -/
def DEFAULT_QUESTIONS : List InterviewQuestion := [
  { key := "error_message",
    prompt := "发生了什么错误？(What error did you see?)",
    detail := some "粘贴报错信息、截图或直观描述。" },
  { key := "expected",
    prompt := "你本来期望发生什么？(What did you expect to happen?)",
    detail := some "描述理想结果或正确行为。" },
  { key := "steps",
    prompt := "重现步骤是什么？(How can we reproduce it?)",
    detail := some "一步一步写出操作流程，包含输入、点击或命令。" },
  { key := "frequency",
    prompt := "问题出现频率如何？(How often does it happen?)",
    detail := some "必现/偶现，最近一次出现时间。" },
  { key := "environment",
    prompt := "运行环境是什么？(What environment are you using?)",
    detail := some "系统、浏览器或客户端版本、网络/权限限制。" },
  { key := "impact",
    prompt := "影响有多大？(How is this impacting you?)",
    detail := some "阻塞程度、影响的用户或业务范围。" },
  { key := "workarounds",
    prompt := "有没有临时解决方案？(Any workarounds tried?)",
    detail := some "暂时可用的替代方案或尝试过的操作。" },
  { key := "artifacts",
    prompt := "有没有附件或日志？(Any logs or attachments?)",
    detail := some "日志片段、请求 ID、截图、视频等。" }
]

/-- `default_questions()` returns `DEFAULT_QUESTIONS.copy()`; as a value it
is the canonical list itself (freshness of the copy is modelled separately
by the store semantics below). -/
def default_questions : List InterviewQuestion := DEFAULT_QUESTIONS

/-- Characters removed by Python `str.strip()` with no argument
(ASCII whitespace; the engine only ever strips user answer text). -/
def isPySpace (c : Char) : Bool :=
  c == ' ' || c == '\t' || c == '\n' || c == '\r' || c == '\x0b' || c == '\x0c'

/-- Drop leading whitespace characters. -/
def stripL (l : List Char) : List Char := l.dropWhile isPySpace

/-- Drop trailing whitespace characters. -/
def stripR (l : List Char) : List Char := (l.reverse.dropWhile isPySpace).reverse

/-- Python `s.strip()`: remove leading and trailing whitespace. -/
def pyStrip (s : String) : String := ⟨stripR (stripL s.data)⟩

/-- Python `s.lower()` restricted to ASCII case mapping (the engine only
lower-cases before comparing with the ASCII words "low"/"minor"). -/
def pyLower (s : String) : String := ⟨s.data.map Char.toLower⟩

/-- `InterviewAgent.conduct(responder)`: for each catalog question in order,
call the responder, strip the answer, and package a response.  The agent's
only state is its question list, passed here explicitly. -/
def conduct (questions : List InterviewQuestion)
    (responder : InterviewQuestion → String) : List InterviewResponse :=
  questions.map (fun question =>
    { key := question.key, question := question,
      answer := pyStrip (responder question) })

/-- One step of a Python dict comprehension: binding key `k` to `v` either
overwrites the existing entry in place or appends a new one. -/
def dictInsert (m : List (String × String)) (k v : String) :
    List (String × String) :=
  if m.any (fun p => p.1 == k) then
    m.map (fun p => if p.1 == k then (k, v) else p)
  else
    m ++ [(k, v)]

/-- Python `d.get(k)`: the value at `k`, if present. -/
def dictGet (m : List (String × String)) (k : String) : Option String :=
  (m.find? (fun p => p.1 == k)).map (fun p => p.2)

/-- The dict comprehension `{r.key: f(r) for r in responses}`. -/
def pyDictOf (f : InterviewResponse → String)
    (responses : List InterviewResponse) : List (String × String) :=
  responses.foldl (fun m r => dictInsert m r.key (f r)) []

/-- `InterviewAgent.to_dict(responses)`:
`{response.key: response.answer for response in responses}`. -/
def to_dict (responses : List InterviewResponse) : List (String × String) :=
  pyDictOf (fun r => r.answer) responses

/-- The dict built at the top of `_recommendations`:
`{response.key: response.answer.strip() for response in responses}`. -/
def response_map (responses : List InterviewResponse) : List (String × String) :=
  pyDictOf (fun r => pyStrip r.answer) responses

def SUGGEST_ARTIFACTS : String := "附上日志、请求 ID 或截图，帮助快速定位。"

def SUGGEST_STEPS : String := "补充最小可复现步骤，便于工程师复现问题。"

def SUGGEST_ENVIRONMENT : String := "说明操作系统、浏览器或客户端版本，避免环境差异。"

def SUGGEST_IMPACT : String := "如果影响扩大，请更新优先级和受影响范围。"

/-- Python truthiness test `not d.get(k)` for an optional string:
true when the key is absent or its value is the empty string. -/
def pyFalsy (o : Option String) : Bool := o.getD "" == ""

/-- `InterviewAgent._recommendations(responses)`: the four presence rules,
appending one fixed suggestion string each, in source order. -/
def _recommendations (responses : List InterviewResponse) : List String :=
  let m := response_map responses
  let suggestions : List String := []
  let suggestions :=
    if pyFalsy (dictGet m "artifacts") then suggestions ++ [SUGGEST_ARTIFACTS]
    else suggestions
  let suggestions :=
    if pyFalsy (dictGet m "steps") then suggestions ++ [SUGGEST_STEPS]
    else suggestions
  let suggestions :=
    if pyFalsy (dictGet m "environment") then suggestions ++ [SUGGEST_ENVIRONMENT]
    else suggestions
  let suggestions :=
    if (["", "low", "minor"] : List String).contains
        (pyLower ((dictGet m "impact").getD "")) then
      suggestions ++ [SUGGEST_IMPACT]
    else suggestions
  suggestions

/-- The block `summarize` renders for one response:
`f"- {prompt}{detail}".strip()` on the first line, then the answer line,
with the sentinel `"<未提供>"` replacing a falsy (empty) answer. -/
def renderBlock (r : InterviewResponse) : String :=
  let detail :=
    match r.question.detail with
    | some d => if d == "" then "" else "（" ++ d ++ "）"
    | none => ""
  let prompt := pyStrip ("- " ++ r.question.prompt ++ detail)
  let answer := if r.answer == "" then "<未提供>" else r.answer
  prompt ++ "\n  回复: " ++ answer

/-- The lines lines 97-100 of `summarize` append: empty unless some
recommendation fired, otherwise a blank line, the header and one bullet
per suggestion. -/
def nextStepsLines (responses : List InterviewResponse) : List String :=
  let recommendations := _recommendations responses
  if recommendations.isEmpty then []
  else "" :: "后续建议 / Next steps:" ::
    recommendations.map (fun item => "- " ++ item)

/-- `InterviewAgent.summarize(responses)`: title, blank line, one block per
response, then the next-steps section when non-empty, joined by newlines. -/
def summarize (responses : List InterviewResponse) : String :=
  String.intercalate "\n"
    (["Hearback errors 访谈纪要 (Interview Summary)", ""]
      ++ responses.map renderBlock ++ nextStepsLines responses)

/-- Whether the character list `pat` occurs contiguously in `l`. -/
def startsWithCh : List Char → List Char → Bool
  | [], _ => true
  | _ :: _, [] => false
  | a :: pat, b :: l => a == b && startsWithCh pat l

/-- Substring search over character lists. -/
def containsSubCh (pat : List Char) : List Char → Bool
  | [] => pat.isEmpty
  | c :: rest => startsWithCh pat (c :: rest) || containsSubCh pat rest

/-- Whether `pat` occurs as a contiguous substring of `s`. -/
def containsSubstr (s pat : String) : Bool := containsSubCh pat.data s.data

/-- A heap of Python list objects holding questions, for reasoning about
aliasing: each cell is one list object, refs are indices. -/
structure QuestionStore where
  cells : List (List InterviewQuestion)

/-- Dereference a list object (out-of-range reads are irrelevant here). -/
def readCell (s : QuestionStore) (r : Nat) : List InterviewQuestion :=
  s.cells.getD r []

/-- Allocate a new list object whose contents copy cell `src`
(Python `list.copy()`), returning the store and the fresh ref. -/
def allocCopy (s : QuestionStore) (src : Nat) : QuestionStore × Nat :=
  ({ cells := s.cells ++ [readCell s src] }, s.cells.length)

/-- The module-level store after `interview.py` is loaded: the canonical
`DEFAULT_QUESTIONS` list object lives at cell 0. -/
def initStore : QuestionStore := { cells := [DEFAULT_QUESTIONS] }

/-- The ref through which the module refers to `DEFAULT_QUESTIONS`. -/
def canonicalRef : Nat := 0

/-- A call of `default_questions()` in the store model: it returns
`DEFAULT_QUESTIONS.copy()`, i.e. allocates a fresh copy of the canonical
cell and hands back its ref. -/
def default_questions_call (s : QuestionStore) : QuestionStore × Nat :=
  allocCopy s canonicalRef

/-- In-place mutation of one list object (append / remove / reorder /
arbitrary rewrite of its elements), leaving every other cell alone. -/
def mutateCell (s : QuestionStore) (r : Nat)
    (f : List InterviewQuestion → List InterviewQuestion) : QuestionStore :=
  { cells := s.cells.set r (f (readCell s r)) }

/-- `InterviewAgent.conduct` with a fallible answer provider: the body of
`conduct` performs no exception handling, so a provider failure at any
question aborts the loop and propagates, embedded here by `Except`. -/
def conductE {ε : Type} (responder : InterviewQuestion → Except ε String) :
    List InterviewQuestion → Except ε (List InterviewResponse)
  | [] => Except.ok []
  | question :: rest =>
    match responder question with
    | Except.error e => Except.error e
    | Except.ok a =>
      (conductE responder rest).map
        (fun responses =>
          { key := question.key, question := question,
            answer := pyStrip a } :: responses)

/-- A provider whose input stream closes after the first question. -/
def closingStreamProvider (q : InterviewQuestion) : Except String String :=
  if q.key == "error_message" then Except.ok "HTTP 500"
  else Except.error "stream closed"

/-- A minimal question used in concrete counterexamples and witnesses. -/
def demoQuestion : InterviewQuestion :=
  { key := "k", prompt := "P", detail := none }

/-- An answer provider for end-to-end scenario A of the spec. -/
def scenarioAProvider (q : InterviewQuestion) : String :=
  if q.key == "error_message" then "HTTP 500"
  else if q.key == "expected" then "HTTP 200"
  else if q.key == "steps" then "open page -> click save"
  else if q.key == "frequency" then "always"
  else if q.key == "environment" then "macOS+Chrome"
  else if q.key == "impact" then "blocking"
  else if q.key == "workarounds" then "none"
  else if q.key == "artifacts" then "req-id=abc-123"
  else ""

/-- C3: `default_questions` returns a catalog of exactly 8 questions whose
keys, in order, are error_message, expected, steps, frequency, environment,
impact, workarounds, artifacts, each question having a non-empty prompt and
a present detail hint. -/
theorem default_questions_catalog :
    default_questions.length = 8 ∧
    default_questions.map (fun q => q.key) =
      ["error_message", "expected", "steps", "frequency", "environment",
       "impact", "workarounds", "artifacts"] ∧
    default_questions.all
      (fun q => !(q.prompt == "") && q.detail.isSome) = true := by
  refine ⟨by decide, by decide, by decide⟩

set_option maxRecDepth 8192 in
/-- C7: for the full default catalog under scenario A's answers, the
summary contains the literal substrings "HTTP 500" and "req-id=abc-123",
no recommendation rule fires, and the output has no next-steps section
(neither the header line nor any trace of it occurs). -/
theorem scenarioA_summary :
    containsSubstr (summarize (conduct default_questions scenarioAProvider))
      "HTTP 500" = true ∧
    containsSubstr (summarize (conduct default_questions scenarioAProvider))
      "req-id=abc-123" = true ∧
    _recommendations (conduct default_questions scenarioAProvider) = [] ∧
    nextStepsLines (conduct default_questions scenarioAProvider) = [] ∧
    containsSubstr (summarize (conduct default_questions scenarioAProvider))
      "后续建议 / Next steps:" = false := by
  refine ⟨by decide, by decide, by decide, by decide, by decide⟩

/-- C9: `default_questions` hands out a fresh list object per call:
after two calls, mutating the first returned list arbitrarily leaves both
the canonical catalog cell and the second returned list holding exactly
`DEFAULT_QUESTIONS`, while the mutation is visible through the first ref. -/
theorem default_questions_fresh_copy
    (f : List InterviewQuestion → List InterviewQuestion) :
    readCell
      (mutateCell (default_questions_call (default_questions_call initStore).1).1
        (default_questions_call initStore).2 f)
      canonicalRef = DEFAULT_QUESTIONS ∧
    readCell
      (mutateCell (default_questions_call (default_questions_call initStore).1).1
        (default_questions_call initStore).2 f)
      (default_questions_call (default_questions_call initStore).1).2
      = DEFAULT_QUESTIONS ∧
    readCell
      (mutateCell (default_questions_call (default_questions_call initStore).1).1
        (default_questions_call initStore).2 f)
      (default_questions_call initStore).2 = f DEFAULT_QUESTIONS := by
  refine ⟨rfl, rfl, rfl⟩

/-- C1: `conduct` preserves the catalog: the result has the catalog's
length, and at every index the response carries the question's key, the
question itself, and the provider's answer stripped of leading and
trailing whitespace. -/
theorem conduct_spec (questions : List InterviewQuestion)
    (responder : InterviewQuestion → String) :
    (conduct questions responder).length = questions.length ∧
    ∀ i : Nat, (conduct questions responder)[i]? =
      (questions[i]?).map (fun q =>
        { key := q.key, question := q, answer := pyStrip (responder q) }) := by
  refine ⟨by simp [conduct], fun i => by simp [conduct]⟩

/-- C8: when the answer provider fails at some question (all earlier
providers having succeeded), `conduct` propagates that failure unchanged
and produces no response list. -/
theorem conductE_propagates {ε : Type} (questions : List InterviewQuestion)
    (responder : InterviewQuestion → Except ε String) (i : Nat) (e : ε)
    (h : i < questions.length)
    (hfail : responder (questions.get ⟨i, h⟩) = Except.error e)
    (hok : ∀ j (hj : j < i),
      (responder (questions.get ⟨j, Nat.lt_trans hj h⟩)).isOk = true) :
    conductE responder questions = Except.error e := by
  induction questions generalizing i with
  | nil => exact absurd h (Nat.not_lt_zero i)
  | cons q rest ih =>
    cases i with
    | zero =>
      simp only [List.get] at hfail
      simp [conductE, hfail]
    | succ j =>
      have hq := hok 0 (Nat.succ_pos j)
      cases hrq : responder q with
      | error e2 =>
        simp only [List.get] at hq
        rw [hrq] at hq
        simp [Except.isOk, Except.toBool] at hq
      | ok a =>
        have hrest : conductE responder rest = Except.error e := by
          refine ih j (Nat.lt_of_succ_lt_succ h) ?_ ?_
          · exact hfail
          · intro k hk
            exact hok (k + 1) (Nat.succ_lt_succ hk)
        simp [conductE, hrq, hrest, Except.map]

/-- Witness for C8: with the two-question catalog prefix and a provider
whose stream closes after the first question, `conduct` yields exactly
that error. -/
theorem conductE_propagates_witness :
    conductE closingStreamProvider (default_questions.take 2)
      = Except.error "stream closed" :=
  conductE_propagates (default_questions.take 2) closingStreamProvider 1
    "stream closed" (by decide) rfl (by decide)

theorem startsWithCh_append (pat ext : List Char) :
    startsWithCh pat (pat ++ ext) = true := by
  induction pat with
  | nil => rfl
  | cons a p ih => simp [startsWithCh, ih]

theorem containsSubCh_tail (pat l : List Char) :
    containsSubCh pat (l ++ pat) = true := by
  induction l with
  | nil =>
    cases pat with
    | nil => rfl
    | cons c p =>
      have h := startsWithCh_append (c :: p) []
      rw [List.append_nil] at h
      simp [containsSubCh, h]
  | cons a l ih => simp [containsSubCh, ih]

/-- C2 counterexample: a response whose answer is the single space " " is
empty after trimming, yet its rendered block shows the raw answer with no
substitution; and a response whose answer is "" gets the sentinel
"<未提供>", never the text "<not provided>". -/
theorem renderBlock_sentinel_counterexample :
    pyStrip " " = "" ∧
    renderBlock { key := "k", question := demoQuestion, answer := " " }
      = "- P\n  回复:  " ∧
    containsSubstr
      (renderBlock { key := "k", question := demoQuestion, answer := " " })
      "<not provided>" = false ∧
    containsSubstr
      (renderBlock { key := "k", question := demoQuestion, answer := "" })
      "<not provided>" = false ∧
    containsSubstr
      (renderBlock { key := "k", question := demoQuestion, answer := "" })
      "<未提供>" = true := by
  refine ⟨by decide, by decide, by decide, by decide, by decide⟩

/-- C2 (amended): for every response whose answer is the empty string
(`summarize` tests the stored answer itself, without re-trimming; answers
produced by `conduct` are already trimmed), the rendered block is exactly
the block that would be rendered had the answer been the fixed sentinel
placeholder text "<未提供>", and it contains that sentinel. -/
theorem renderBlock_sentinel (r : InterviewResponse) (h : r.answer = "") :
    renderBlock r = renderBlock { r with answer := "<未提供>" } ∧
    containsSubstr (renderBlock r) "<未提供>" = true := by
  constructor
  · simp [renderBlock, h]
  · show containsSubCh _ _ = true
    simp only [renderBlock, h]
    rw [show ((if ("" : String) == "" then "<未提供>" else "") : String)
        = "<未提供>" from rfl]
    rw [String.data_append]
    exact containsSubCh_tail _ _

/-- Witness for the amended C2 at a concrete response with empty answer. -/
theorem renderBlock_sentinel_witness :
    renderBlock { key := "k", question := demoQuestion, answer := "" }
      = renderBlock { key := "k", question := demoQuestion, answer := "<未提供>" } ∧
    containsSubstr
      (renderBlock { key := "k", question := demoQuestion, answer := "" })
      "<未提供>" = true :=
  renderBlock_sentinel
    { key := "k", question := demoQuestion, answer := "" } rfl

theorem find?_overwrite_self (m : List (String × String)) (k v : String) :
    (m.map (fun p => if p.1 == k then (k, v) else p)).find?
        (fun p => p.1 == k)
      = if m.any (fun p => p.1 == k) then some (k, v) else none := by
  induction m with
  | nil => rfl
  | cons p m ih =>
    rw [List.map_cons, List.any_cons]
    by_cases hp : p.1 = k
    · have hb : (p.1 == k) = true := beq_iff_eq.mpr hp
      have hgp : (if p.1 == k then (k, v) else p) = (k, v) := by rw [hb]; rfl
      have hkk : (((k, v) : String × String).1 == k) = true := beq_iff_eq.mpr rfl
      rw [hgp, List.find?_cons, hb]
      simp only [hkk]
      rfl
    · have hb : (p.1 == k) = false := beq_eq_false_iff_ne.mpr hp
      have hgp : (if p.1 == k then (k, v) else p) = p := by rw [hb]; rfl
      rw [hgp, List.find?_cons, hb, Bool.false_or]
      simp only [hb]
      exact ih

theorem find?_overwrite_other (m : List (String × String)) (k v k2 : String)
    (hne : k2 ≠ k) :
    (m.map (fun p => if p.1 == k then (k, v) else p)).find?
        (fun p => p.1 == k2)
      = m.find? (fun p => p.1 == k2) := by
  induction m with
  | nil => rfl
  | cons p m ih =>
    rw [List.map_cons]
    by_cases hp : p.1 = k
    · have hb : (p.1 == k) = true := beq_iff_eq.mpr hp
      have hgp : (if p.1 == k then (k, v) else p) = (k, v) := by rw [hb]; rfl
      have h1 : (((k, v) : String × String).1 == k2) = false :=
        beq_eq_false_iff_ne.mpr (fun h => hne h.symm)
      have h2 : (p.1 == k2) = false := by
        rw [hp] at hb ⊢
        exact beq_eq_false_iff_ne.mpr (fun h => hne h.symm)
      rw [hgp, List.find?_cons, List.find?_cons]
      simp only [h1, h2]
      exact ih
    · have hb : (p.1 == k) = false := beq_eq_false_iff_ne.mpr hp
      have hgp : (if p.1 == k then (k, v) else p) = p := by rw [hb]; rfl
      rw [hgp, List.find?_cons, List.find?_cons]
      cases hq : (p.1 == k2) with
      | true => simp only [hq]
      | false =>
        simp only [hq]
        exact ih

theorem dictGet_insert (m : List (String × String)) (k v k2 : String) :
    dictGet (dictInsert m k v) k2 = if k2 = k then some v else dictGet m k2 := by
  unfold dictInsert dictGet
  by_cases hany : m.any (fun p => p.1 == k) = true
  · rw [if_pos hany]
    by_cases hk : k2 = k
    · subst hk
      rw [find?_overwrite_self, if_pos hany]
      simp
    · rw [find?_overwrite_other m k v k2 hk, if_neg hk]
  · rw [if_neg hany, List.find?_append]
    have hnone : m.find? (fun p => p.1 == k) = none := by
      rw [List.find?_eq_none]
      intro x hx hxk
      exact hany (List.any_eq_true.mpr ⟨x, hx, hxk⟩)
    by_cases hk : k2 = k
    · subst hk
      rw [hnone]
      simp [List.find?]
    · have hkk2 : ((k, v).1 == k2) = false := by
        simp
        exact fun h => hk h.symm
      simp [List.find?, hkk2, hk]

theorem dictGet_pyDictOf (f : InterviewResponse → String)
    (responses : List InterviewResponse) (k : String) :
    dictGet (pyDictOf f responses) k
      = ((responses.filter (fun r => r.key == k)).getLast?).map f := by
  induction responses using List.reverseRecOn with
  | nil => rfl
  | append_singleton rs r ih =>
    rw [show pyDictOf f (rs ++ [r])
        = dictInsert (pyDictOf f rs) r.key (f r) by
      unfold pyDictOf
      rw [List.foldl_append]
      rfl]
    rw [dictGet_insert, List.filter_append]
    by_cases hk : r.key = k
    · rw [if_pos hk.symm]
      have : List.filter (fun r => r.key == k) [r] = [r] := by
        simp [List.filter, hk]
      rw [this, List.getLast?_concat]
      rfl
    · have hb : (r.key == k) = false := by simpa using hk
      have : List.filter (fun r => r.key == k) [r] = [] := by
        simp [List.filter, hb]
      rw [this, List.append_nil, if_neg (fun h => hk h.symm)]
      exact ih

theorem mem_keys_iff_find?_isSome (m : List (String × String)) (k : String) :
    k ∈ m.map Prod.fst ↔ (m.find? (fun p => p.1 == k)).isSome = true := by
  induction m with
  | nil => simp [List.find?]
  | cons p m ih =>
    rw [List.map_cons, List.mem_cons, List.find?_cons]
    by_cases hp : p.1 = k
    · have hb : (p.1 == k) = true := beq_iff_eq.mpr hp
      simp [hb, hp.symm]
    · have hb : (p.1 == k) = false := beq_eq_false_iff_ne.mpr hp
      simp only [hb]
      constructor
      · intro h
        rcases h with h | h
        · exact absurd h.symm hp
        · exact ih.mp h
      · intro h
        exact Or.inr (ih.mpr h)

theorem pyDictOf_of_nodup (f : InterviewResponse → String)
    (responses : List InterviewResponse)
    (h : (responses.map (fun r => r.key)).Nodup) :
    pyDictOf f responses = responses.map (fun r => (r.key, f r)) := by
  induction responses using List.reverseRecOn with
  | nil => rfl
  | append_singleton rs r ih =>
    rw [List.map_append] at h
    obtain ⟨h1, _, hdisj⟩ := List.nodup_append.mp h
    have hnotin : r.key ∉ rs.map (fun r => r.key) := by
      intro hmem
      exact hdisj hmem (by simp)
    rw [show pyDictOf f (rs ++ [r])
        = dictInsert (pyDictOf f rs) r.key (f r) by
      unfold pyDictOf
      rw [List.foldl_append]
      rfl]
    rw [ih h1, dictInsert]
    have hany : ((rs.map (fun r => (r.key, f r))).any
        (fun p => p.1 == r.key)) = false := by
      rw [Bool.eq_false_iff]
      intro hcontra
      obtain ⟨x, hx, hxk⟩ := List.any_eq_true.mp hcontra
      obtain ⟨r2, hr2, hr2x⟩ := List.mem_map.mp hx
      apply hnotin
      rw [List.mem_map]
      exact ⟨r2, hr2, by
        have := beq_iff_eq.mp hxk
        rw [← hr2x] at this
        exact this⟩
    rw [if_neg (by rw [hany]; exact Bool.false_ne_true), List.map_append]
    rfl

/-- C6: `to_dict` maps each key occurring in the responses to the answer of
the last response bearing that key (last-write-wins); its key set is the
set of keys occurring in the responses; and when the catalog's keys are
unique, `to_dict` of a conducted interview has exactly the catalog's keys. -/
theorem to_dict_spec :
    (∀ (responses : List InterviewResponse) (k : String),
      dictGet (to_dict responses) k
        = ((responses.filter (fun r => r.key == k)).getLast?).map
            (fun r => r.answer)) ∧
    (∀ (responses : List InterviewResponse) (k : String),
      k ∈ (to_dict responses).map Prod.fst ↔ ∃ r ∈ responses, r.key = k) ∧
    (∀ (questions : List InterviewQuestion)
        (responder : InterviewQuestion → String),
      (questions.map (fun q => q.key)).Nodup →
      (to_dict (conduct questions responder)).map Prod.fst
        = questions.map (fun q => q.key)) := by
  refine ⟨fun rs k => dictGet_pyDictOf _ rs k, fun rs k => ?_, fun qs p h => ?_⟩
  · rw [mem_keys_iff_find?_isSome]
    have hd : dictGet (to_dict rs) k
        = ((rs.filter (fun r => r.key == k)).getLast?).map (fun r => r.answer) :=
      dictGet_pyDictOf _ rs k
    have hiso : ((to_dict rs).find? (fun p => p.1 == k)).isSome
        = (dictGet (to_dict rs) k).isSome := by
      unfold dictGet
      cases (to_dict rs).find? (fun p => p.1 == k) <;> rfl
    rw [hiso, hd]
    constructor
    · intro hsome
      have : ((rs.filter (fun r => r.key == k)).getLast?).isSome = true := by
        cases hl : (rs.filter (fun r => r.key == k)).getLast? with
        | none => rw [hl] at hsome; exact absurd hsome (by simp)
        | some x => simp
      have hne := List.getLast?_isSome.mp this
      have : rs.filter (fun r => r.key == k) ≠ [] := hne
      obtain ⟨x, hx⟩ := List.exists_mem_of_ne_nil _ this
      have hx2 := List.mem_filter.mp hx
      exact ⟨x, hx2.1, beq_iff_eq.mp hx2.2⟩
    · intro ⟨r, hr, hrk⟩
      have hmem : r ∈ rs.filter (fun r => r.key == k) :=
        List.mem_filter.mpr ⟨hr, beq_iff_eq.mpr hrk⟩
      have hne : rs.filter (fun r => r.key == k) ≠ [] :=
        List.ne_nil_of_mem hmem
      have := List.getLast?_isSome.mpr hne
      cases hl : (rs.filter (fun r => r.key == k)).getLast? with
      | none => exact absurd (hl ▸ this) (by simp)
      | some x => rfl
  · have hkeys : (conduct qs p).map (fun r => r.key) = qs.map (fun q => q.key) := by
      unfold conduct
      rw [List.map_map]
      rfl
    rw [show to_dict (conduct qs p)
        = (conduct qs p).map (fun r => (r.key, r.answer)) from
      pyDictOf_of_nodup _ _ (by rw [hkeys]; exact h)]
    rw [List.map_map]
    rw [show (Prod.fst ∘ fun r : InterviewResponse => (r.key, r.answer))
        = fun r : InterviewResponse => r.key from rfl]
    exact hkeys

/-- Witness for C6's unique-keys conjunct: with the first two default
questions (distinct keys) and answers equal to the prompts, `to_dict`
projects exactly the keys error_message, expected. -/
theorem to_dict_spec_witness :
    (to_dict (conduct (default_questions.take 2) (fun q => q.prompt))).map
        Prod.fst
      = (default_questions.take 2).map (fun q => q.key) :=
  to_dict_spec.2.2 (default_questions.take 2) (fun q => q.prompt) (by decide)

theorem recommendations_unfold (responses : List InterviewResponse) :
    _recommendations responses =
      (if pyFalsy (dictGet (response_map responses) "artifacts")
        then [SUGGEST_ARTIFACTS] else []) ++
      (if pyFalsy (dictGet (response_map responses) "steps")
        then [SUGGEST_STEPS] else []) ++
      (if pyFalsy (dictGet (response_map responses) "environment")
        then [SUGGEST_ENVIRONMENT] else []) ++
      (if (["", "low", "minor"] : List String).contains
          (pyLower ((dictGet (response_map responses) "impact").getD ""))
        then [SUGGEST_IMPACT] else []) := by
  unfold _recommendations
  cases h1 : pyFalsy (dictGet (response_map responses) "artifacts") <;>
    cases h2 : pyFalsy (dictGet (response_map responses) "steps") <;>
      cases h3 : pyFalsy (dictGet (response_map responses) "environment") <;>
        cases h4 : (["", "low", "minor"] : List String).contains
          (pyLower ((dictGet (response_map responses) "impact").getD "")) <;>
          simp [h1, h2, h3, h4] <;> (simp at h4; tauto)

theorem mem_four_chunks_first {a s1 s2 s3 s4 : String} {c1 c2 c3 c4 : Bool}
    (h2 : a ≠ s2) (h3 : a ≠ s3) (h4 : a ≠ s4) :
    (a ∈ (if c1 then [s1] else []) ++ (if c2 then [s2] else []) ++
        (if c3 then [s3] else []) ++ (if c4 then [s4] else [])) ↔
      (c1 = true ∧ a = s1) := by
  cases c1 <;> cases c2 <;> cases c3 <;> cases c4 <;> simp [h2, h3, h4]

theorem mem_four_chunks_last {a s1 s2 s3 s4 : String} {c1 c2 c3 c4 : Bool}
    (h1 : a ≠ s1) (h2 : a ≠ s2) (h3 : a ≠ s3) :
    (a ∈ (if c1 then [s1] else []) ++ (if c2 then [s2] else []) ++
        (if c3 then [s3] else []) ++ (if c4 then [s4] else [])) ↔
      (c4 = true ∧ a = s4) := by
  cases c1 <;> cases c2 <;> cases c3 <;> cases c4 <;> simp [h1, h2, h3]

/-- C4: the attach-logs suggestion appears in the recommendation list iff
the (last) response keyed "artifacts" is absent or trims to the empty
string; concretely, with artifacts answered "req-123" it is absent, and
with artifacts answered "" or omitted it is present. -/
theorem artifacts_rule_spec :
    (∀ responses : List InterviewResponse,
      SUGGEST_ARTIFACTS ∈ _recommendations responses ↔
        (((responses.filter (fun r => r.key == "artifacts")).getLast?).map
            (fun r => pyStrip r.answer)).getD "" = "") ∧
    SUGGEST_ARTIFACTS ∉ _recommendations
      [{ key := "artifacts", question := demoQuestion, answer := "req-123" }] ∧
    SUGGEST_ARTIFACTS ∈ _recommendations
      [{ key := "artifacts", question := demoQuestion, answer := "" }] ∧
    SUGGEST_ARTIFACTS ∈ _recommendations [] := by
  refine ⟨fun rs => ?_, by decide, by decide, by decide⟩
  rw [recommendations_unfold,
    mem_four_chunks_first (by decide) (by decide) (by decide)]
  rw [show dictGet (response_map rs) "artifacts"
      = ((rs.filter (fun r => r.key == "artifacts")).getLast?).map
          (fun r => pyStrip r.answer) from dictGet_pyDictOf _ rs _]
  unfold pyFalsy
  constructor
  · intro ⟨hb, _⟩
    exact beq_iff_eq.mp hb
  · intro h
    exact ⟨beq_iff_eq.mpr h, rfl⟩

/-- C5: the revisit-priority suggestion appears in the recommendation list
iff the (last) impact response's answer, trimmed and lower-cased (or the
empty string when the impact key is absent), is one of "", "low", "minor";
concretely impact = "Low" fires it and impact = "severe outage" does not. -/
theorem impact_rule_spec :
    (∀ responses : List InterviewResponse,
      SUGGEST_IMPACT ∈ _recommendations responses ↔
        pyLower ((((responses.filter (fun r => r.key == "impact")).getLast?).map
            (fun r => pyStrip r.answer)).getD "")
          ∈ (["", "low", "minor"] : List String)) ∧
    SUGGEST_IMPACT ∈ _recommendations
      [{ key := "impact", question := demoQuestion, answer := "Low" }] ∧
    SUGGEST_IMPACT ∉ _recommendations
      [{ key := "impact", question := demoQuestion, answer := "severe outage" }]
      := by
  refine ⟨fun rs => ?_, by decide, by decide⟩
  rw [recommendations_unfold,
    mem_four_chunks_last (by decide) (by decide) (by decide)]
  rw [show dictGet (response_map rs) "impact"
      = ((rs.filter (fun r => r.key == "impact")).getLast?).map
          (fun r => pyStrip r.answer) from dictGet_pyDictOf _ rs _]
  constructor
  · intro ⟨hb, _⟩
    rw [List.contains] at hb
    exact List.elem_iff.mp hb
  · intro h
    refine ⟨?_, rfl⟩
    rw [List.contains]
    exact List.elem_iff.mpr h

theorem dropWhile_idem {α : Type} (p : α → Bool) (l : List α) :
    (l.dropWhile p).dropWhile p = l.dropWhile p := by
  induction l with
  | nil => rfl
  | cons a l ih =>
    rw [List.dropWhile_cons]
    by_cases h : p a = true
    · rw [if_pos h]
      exact ih
    · rw [if_neg h, List.dropWhile_cons, if_neg h]

theorem stripL_idem (l : List Char) : stripL (stripL l) = stripL l :=
  dropWhile_idem isPySpace l

theorem stripR_idem (l : List Char) : stripR (stripR l) = stripR l := by
  unfold stripR
  rw [List.reverse_reverse, dropWhile_idem]

theorem dropWhile_eq_drop {α : Type} (p : α → Bool) (l : List α) :
    ∃ n, l.dropWhile p = l.drop n := by
  induction l with
  | nil => exact ⟨0, rfl⟩
  | cons a l ih =>
    rw [List.dropWhile_cons]
    by_cases h : p a = true
    · obtain ⟨n, hn⟩ := ih
      exact ⟨n + 1, by rw [if_pos h, hn]; rfl⟩
    · exact ⟨0, by rw [if_neg h]; rfl⟩

theorem getLast?_drop_of_ne_nil {α : Type} (l : List α) (n : Nat)
    (h : l.drop n ≠ []) : (l.drop n).getLast? = l.getLast? := by
  induction l generalizing n with
  | nil => rw [List.drop_nil] at h; exact absurd rfl h
  | cons a l ih =>
    cases n with
    | zero => rfl
    | succ n =>
      rw [List.drop_succ_cons] at h ⊢
      rw [ih n h]
      have hl : l ≠ [] := by
        intro he
        rw [he, List.drop_nil] at h
        exact h rfl
      rw [show (a :: l).getLast? = l.getLast?.or (some a) by
        rw [← List.singleton_append, List.getLast?_append]
        simp]
      obtain ⟨x, hx⟩ := Option.isSome_iff_exists.mp (List.getLast?_isSome.mpr hl)
      rw [hx]
      rfl

theorem head?_dropWhile_not {α : Type} (p : α → Bool) (l : List α) (c : α)
    (hc : (l.dropWhile p).head? = some c) : p c = false := by
  induction l with
  | nil => exact absurd hc (by simp [List.dropWhile])
  | cons a l ih =>
    rw [List.dropWhile_cons] at hc
    by_cases h : p a = true
    · rw [if_pos h] at hc
      exact ih hc
    · rw [if_neg h] at hc
      rw [List.head?_cons] at hc
      cases hc
      exact Bool.eq_false_iff.mpr h

theorem dropWhile_of_head?_not {α : Type} (p : α → Bool) (l : List α)
    (h : ∀ c, l.head? = some c → p c = false) : l.dropWhile p = l := by
  cases l with
  | nil => rfl
  | cons a l =>
    have := h a rfl
    rw [List.dropWhile_cons, if_neg (by rw [this]; exact Bool.false_ne_true)]

theorem head?_stripR_eq (l : List Char) (c : Char)
    (h : (stripR l).head? = some c) : l.head? = some c := by
  unfold stripR at h
  obtain ⟨n, hn⟩ := dropWhile_eq_drop isPySpace l.reverse
  rw [hn] at h
  rw [List.head?_reverse] at h
  have hne : l.reverse.drop n ≠ [] := by
    intro he
    rw [he] at h
    exact absurd h (by simp)
  rw [getLast?_drop_of_ne_nil _ _ hne, List.getLast?_reverse] at h
  exact h

theorem stripL_stripR_of_fixed (l : List Char) (hl : stripL l = l) :
    stripL (stripR l) = stripR l := by
  apply dropWhile_of_head?_not
  intro c hc
  have h1 : l.head? = some c := head?_stripR_eq l c hc
  have h2 : (stripL l).head? = some c := by rw [hl]; exact h1
  exact head?_dropWhile_not isPySpace l c h2

theorem pyStrip_idem (s : String) : pyStrip (pyStrip s) = pyStrip s := by
  unfold pyStrip
  have h1 : stripL (stripL s.data) = stripL s.data := stripL_idem s.data
  have h2 : stripL (stripR (stripL s.data)) = stripR (stripL s.data) :=
    stripL_stripR_of_fixed (stripL s.data) h1
  show String.mk (stripR (stripL (stripR (stripL s.data))))
    = String.mk (stripR (stripL s.data))
  rw [h2, stripR_idem]

/-- C10: the recommendation rules re-trim every answer, so the suggestion
list — and with it the next-steps section of the summary — is unchanged
when every response answer is replaced by its whitespace-trimmed form. -/
theorem recommendations_trim_invariant (responses : List InterviewResponse) :
    _recommendations
        (responses.map (fun r => { r with answer := pyStrip r.answer }))
      = _recommendations responses ∧
    nextStepsLines
        (responses.map (fun r => { r with answer := pyStrip r.answer }))
      = nextStepsLines responses := by
  have hmap : response_map
      (responses.map (fun r => { r with answer := pyStrip r.answer }))
      = response_map responses := by
    unfold response_map pyDictOf
    rw [List.foldl_map]
    have : (fun (m : List (String × String)) (r : InterviewResponse) =>
        dictInsert m ({ r with answer := pyStrip r.answer } : InterviewResponse).key
          (pyStrip ({ r with answer := pyStrip r.answer } : InterviewResponse).answer))
        = (fun m r => dictInsert m r.key (pyStrip r.answer)) := by
      funext m r
      show dictInsert m r.key (pyStrip (pyStrip r.answer))
        = dictInsert m r.key (pyStrip r.answer)
      rw [pyStrip_idem]
    rw [this]
  have hrec : _recommendations
      (responses.map (fun r => { r with answer := pyStrip r.answer }))
      = _recommendations responses := by
    unfold _recommendations
    rw [hmap]
  exact ⟨hrec, by unfold nextStepsLines; rw [hrec]⟩
